import Mathlib

/-!
Verification of the nested-path JSON key-value store in
`src/Manager/JSON/JSON.ts` (class `DataBase`).

Modelling notes.

* The persisted document is a JSON value: we embed it as the inductive
  `GoDB.JVal` (mapping, array, string, number, boolean, null).  A mapping is an
  ordered association list, reflecting JS object key-insertion order.
* JS numbers are modelled as `Int`.  No claim checked here depends on
  floating-point behaviour.
* Property access on parsed values is modelled as own-property lookup.
  Inherited `Object.prototype` names (`toString`, `__proto__`, ...) are outside
  the model, as is string/array `ToNumber` coercion for `length` assignment
  beyond plain numbers; none of the claims touch those corners.
* Strings and arrays expose their JS own properties: canonical numeric indices
  and `length`.  Assigning a non-index property to an array succeeds in memory
  but is dropped by `JSON.stringify`; since every operation re-reads the file,
  we model the persisted effect directly (the assignment is a persisted no-op,
  and any sub-tree written below such a property is dropped).
* `hasOwnProperty` on `null` (and property access on `null`) throws a JS
  `TypeError`; assigning an invalid array length throws a `RangeError`.  These
  are distinguished from the library's own `DatabaseError` kinds.
* `===` used by `Array.prototype.indexOf` is reference equality on objects and
  arrays.  Array elements come fresh from `JSON.parse`, so an external
  argument is never reference-equal to an object/array element; primitive
  comparisons are by value (`GoDB.strictEqPrim`).
* Key arguments are typed `String`, so the `typeof key !== 'string'` check
  (`InvalidKeyType`) and the `typeof value !== 'number'` check
  (`InvalidValueType`) cannot fire inside the embedding; their error kinds are
  kept in the taxonomy for completeness.
* Every operation returns `(writes, outcome)` where `writes` is the ordered
  list of full documents passed to `writeFileSync` during the call.  The file
  content after the call is the last write, if any (`GoDB.fileAfter`).
-/

namespace GoDB

/-- Error kinds: the five `DatabaseError` classes of the spec's taxonomy plus
the two raw JS exceptions the code can also raise. -/
inductive JErr where
  | invalidKey
  | invalidKeyType
  | invalidValueType
  | cannotCreateProperty
  | nonNumericTarget
  | notAnArray
  | typeError
  | rangeError
deriving DecidableEq

/-- A JSON value as produced by `JSON.parse`. -/
inductive JVal where
  | null
  | bool (b : Bool)
  | num (n : Int)
  | str (s : String)
  | arr (elems : List JVal)
  | obj (fields : List (String × JVal))

/-- JS truthiness of a defined value. -/
def truthy : JVal → Bool
  | JVal.null => false
  | JVal.bool b => b
  | JVal.num n => n != 0
  | JVal.str s => s != ""
  | JVal.arr _ => true
  | JVal.obj _ => true

/-- JS truthiness where `none` is `undefined`. -/
def truthyO : Option JVal → Bool
  | none => false
  | some v => truthy v

/-- `typeof v === 'object'` (true for mappings, arrays and `null`). -/
def typeofObject : JVal → Bool
  | JVal.null => true
  | JVal.arr _ => true
  | JVal.obj _ => true
  | _ => false

/-- `typeof v === 'object'` where `none` is `undefined`. -/
def typeofObjectO : Option JVal → Bool
  | none => false
  | some v => typeofObject v

def isNull : JVal → Bool
  | JVal.null => true
  | _ => false

/-- First-match association-list lookup (JS object property read). -/
def lookupKV : List (String × JVal) → String → Option JVal
  | [], _ => none
  | (k, v) :: rest, key => if k = key then some v else lookupKV rest key

/-- JS object property assignment: replace in place if present (keeping the
original key position), else append at the end. -/
def insertKV : List (String × JVal) → String → JVal → List (String × JVal)
  | [], key, v => [(key, v)]
  | (k, w) :: rest, key, v =>
      if k = key then (key, v) :: rest else (k, w) :: insertKV rest key v

/-- JS `delete obj[key]`: drop the entry. -/
def removeKV : List (String × JVal) → String → List (String × JVal)
  | [], _ => []
  | (k, w) :: rest, key => if k = key then rest else (k, w) :: removeKV rest key

/-- Decimal value of a digit list (only called on all-digit lists). -/
def readNatD : List Char → Nat → Nat
  | [], acc => acc
  | c :: cs, acc => readNatD cs (acc * 10 + (c.toNat - 48))

/-- Canonical array-index check: `p` is the decimal representation of a natural
number with no leading zeros (the strings for which JS arrays and strings have
indexed own properties). -/
def canonIndex (p : String) : Option Nat :=
  match p.data with
  | [] => none
  | [c] => if c.isDigit then some (c.toNat - 48) else none
  | c :: cs =>
      if c.isDigit && c != '0' && cs.all (fun d => d.isDigit) then
        some (readNatD (c :: cs) 0)
      else none

/-- Array index write with JS semantics: writing past the end pads with holes,
which `JSON.stringify` serializes as `null`. -/
def setIdx (xs : List JVal) (i : Nat) (v : JVal) : List JVal :=
  if i < xs.length then xs.set i v
  else xs ++ List.replicate (i - xs.length) JVal.null ++ [v]

/-- `arr.length = n`: truncate or pad with holes (persisted as `null`). -/
def resizeArr (xs : List JVal) (n : Nat) : List JVal :=
  if n ≤ xs.length then xs.take n
  else xs ++ List.replicate (n - xs.length) JVal.null

/-- Own-property read (`v[p]` on a parsed value), `none` meaning `undefined`.
Mappings use assoc lookup; arrays and strings expose canonical indices and
`length`; primitives have no own properties.  The caller handles `null`
(where real JS property access throws). -/
def propOr : JVal → String → Option JVal
  | JVal.obj fields, p => lookupKV fields p
  | JVal.arr xs, p =>
      (match canonIndex p with
       | some i => xs[i]?
       | none =>
           if p = "length" then some (JVal.num (Int.ofNat xs.length)) else none)
  | JVal.str s, p =>
      (match canonIndex p with
       | some i => (s.data[i]?).map (fun c => JVal.str (String.mk [c]))
       | none =>
           if p = "length" then some (JVal.num (Int.ofNat s.data.length))
           else none)
  | _, _ => none

/-- `v.hasOwnProperty(p)` for non-null `v` (boxed primitives included). -/
def hasOwn (c : JVal) (p : String) : Bool :=
  (propOr c p).isSome

/-- Defined-property read used after a successful `hasOwn` test. -/
def propOrD (c : JVal) (p : String) : JVal :=
  (propOr c p).getD JVal.null

/-- Strip `sep` from the front of `cs`. -/
def dropSep : List Char → List Char → Option (List Char)
  | [], cs => some cs
  | _ :: _, [] => none
  | a :: as, c :: cs => if a = c then dropSep as cs else none

/-- Fueled splitter (fuel bounds the number of consumed characters, so the
recursion is structural and kernel-reducible). -/
def splitAux (sep : List Char) : Nat → List Char → List Char → List String
  | _, [], acc => [String.mk acc.reverse]
  | 0, cs, acc => [String.mk (acc.reverse ++ cs)]
  | fuel + 1, c :: cs, acc =>
      match dropSep sep (c :: cs) with
      | some rest => String.mk acc.reverse :: splitAux sep fuel rest []
      | none => splitAux sep fuel cs (c :: acc)

/-- JS `key.split(separator)`: an empty separator splits into single
characters, otherwise greedy left-to-right splitting on the separator. -/
def jsSplit (s sep : String) : List String :=
  if sep = "" then s.data.map (fun c => String.mk [c])
  else splitAux sep.data (s.data.length + 1) s.data []

/-- The segment list an operation walks: the split key in nested mode, the
whole key as a single segment otherwise. -/
def jparts (key : String) (nested : Bool) (sep : String) : List String :=
  if nested then jsSplit key sep else [key]

/-- File content after a call, given the original content and the write
trace: the last write wins, no write leaves the file unchanged. -/
def fileAfter (file : JVal) (writes : List JVal) : JVal :=
  writes.getLast?.getD file

/-!
The shared mutating walk of `set` / `add` / `subtract` / `push`:

```
for (let i = 0; i < keyParts.length - 1; i++) {
  const part = keyParts[i];
  // set:                 if (!currentObject[part]) currentObject[part] = {};
  // add/subtract/push:   if (!currentObject.hasOwnProperty(part)) currentObject[part] = {};
  else if (typeof currentObject[part] !== 'object') throw CannotCreateProperty
  currentObject = currentObject[part];
}
currentObject[lastPart] = ...   // per-operation terminal effect
```

`byTruthy` selects the `set` flavour (truthiness test) versus the
`hasOwnProperty` flavour.  The walk is expressed as a path rebuild of the
persisted document: mapping and array-index children are rebuilt, an array
non-index child is a persisted no-op (`JSON.stringify` drops it) although the
detached sub-walk still runs, and descending into `null` (possible only in the
`hasOwnProperty` flavour, since `typeof null === 'object'`) raises the JS
`TypeError` that `hasOwnProperty`/indexing on `null` produces. -/

def walkMut (byTruthy : Bool) (term : JVal → String → Except JErr JVal) :
    JVal → List String → Except JErr JVal
  | c, [] => .ok c
  | c, [p] => term c p
  | JVal.obj fields, p :: q :: rest =>
      let cur := lookupKV fields p
      if (if byTruthy then !truthyO cur else cur.isNone) then
        (walkMut byTruthy term (JVal.obj []) (q :: rest)).map
          (fun child => JVal.obj (insertKV fields p child))
      else if typeofObjectO cur then
        (walkMut byTruthy term (cur.getD JVal.null) (q :: rest)).map
          (fun child => JVal.obj (insertKV fields p child))
      else .error .cannotCreateProperty
  | JVal.arr xs, p :: q :: rest =>
      (match canonIndex p with
       | some i =>
           let cur := xs[i]?
           if (if byTruthy then !truthyO cur else cur.isNone) then
             (walkMut byTruthy term (JVal.obj []) (q :: rest)).map
               (fun child => JVal.arr (setIdx xs i child))
           else if typeofObjectO cur then
             (walkMut byTruthy term (cur.getD JVal.null) (q :: rest)).map
               (fun child => JVal.arr (setIdx xs i child))
           else .error .cannotCreateProperty
       | none =>
           if p = "length" then
             -- `length` is always an own property holding a number:
             -- truthiness flavour with length 0 assigns `{}` to `length`
             -- (RangeError), otherwise `typeof number` fails the descent.
             if byTruthy && xs.length == 0 then .error .rangeError
             else .error .cannotCreateProperty
           else
             -- absent non-index property: the in-memory assignment and the
             -- whole sub-walk below it are dropped by serialization.
             (walkMut byTruthy term (JVal.obj []) (q :: rest)).map
               (fun _ => JVal.arr xs))
  | JVal.null, _ :: _ :: _ => .error .typeError
  | JVal.str _, _ :: _ :: _ => .error .typeError  -- unreachable from the walk
  | JVal.num _, _ :: _ :: _ => .error .typeError  -- unreachable from the walk
  | JVal.bool _, _ :: _ :: _ => .error .typeError -- unreachable from the walk

/-- Terminal effect of `set`: `currentObject[lastPart] = value`. -/
def setTerm (v : JVal) (c : JVal) (p : String) : Except JErr JVal :=
  match c with
  | JVal.obj fields => .ok (JVal.obj (insertKV fields p v))
  | JVal.arr xs =>
      (match canonIndex p with
       | some i => .ok (JVal.arr (setIdx xs i v))
       | none =>
           if p = "length" then
             match v with
             | JVal.num n =>
                 if 0 ≤ n then .ok (JVal.arr (resizeArr xs n.toNat))
                 else .error .rangeError
             | _ => .error .rangeError
           else .ok (JVal.arr xs))  -- non-index property: dropped on persist
  | JVal.null => .error .typeError  -- unreachable: set never descends into null
  | c' => .ok c'  -- sloppy-mode silent no-op on primitives (unreachable)

/-- Terminal effect of `add` (and of `subtract`, with `δ` negated):
`if (!cur) cur = δ; else if (typeof cur === 'number') cur += δ; else throw`. -/
def addTerm (δ : Int) (c : JVal) (p : String) : Except JErr JVal :=
  match c with
  | JVal.null => .error .typeError  -- reading `lastPart` off null throws
  | JVal.obj fields =>
      let cur := lookupKV fields p
      if !truthyO cur then .ok (JVal.obj (insertKV fields p (JVal.num δ)))
      else
        match cur with
        | some (JVal.num n) => .ok (JVal.obj (insertKV fields p (JVal.num (n + δ))))
        | _ => .error .nonNumericTarget
  | JVal.arr xs =>
      (match canonIndex p with
       | some i =>
           let cur := xs[i]?
           if !truthyO cur then .ok (JVal.arr (setIdx xs i (JVal.num δ)))
           else
             match cur with
             | some (JVal.num n) => .ok (JVal.arr (setIdx xs i (JVal.num (n + δ))))
             | _ => .error .nonNumericTarget
       | none =>
           if p = "length" then
             -- assigning/incrementing the length resizes the array
             if xs.length == 0 then
               if 0 ≤ δ then .ok (JVal.arr (resizeArr xs δ.toNat))
               else .error .rangeError
             else
               if 0 ≤ Int.ofNat xs.length + δ then
                 .ok (JVal.arr (resizeArr xs (Int.ofNat xs.length + δ).toNat))
               else .error .rangeError
           else .ok (JVal.arr xs))  -- non-index property: dropped on persist
  | c' => .ok c'  -- primitives: silent no-op in sloppy mode (unreachable)

/-- Terminal effect of `push`: guard `!currentObject || typeof !== 'object'`,
then `if (!cur) cur = []; else if (!Array.isArray(cur)) throw; cur.push(v)`. -/
def pushTerm (v : JVal) (c : JVal) (p : String) : Except JErr JVal :=
  match c with
  | JVal.obj fields =>
      let cur := lookupKV fields p
      if !truthyO cur then .ok (JVal.obj (insertKV fields p (JVal.arr [v])))
      else
        match cur with
        | some (JVal.arr a) => .ok (JVal.obj (insertKV fields p (JVal.arr (a ++ [v]))))
        | _ => .error .notAnArray
  | JVal.arr xs =>
      (match canonIndex p with
       | some i =>
           let cur := xs[i]?
           if !truthyO cur then .ok (JVal.arr (setIdx xs i (JVal.arr [v])))
           else
             match cur with
             | some (JVal.arr a) => .ok (JVal.arr (setIdx xs i (JVal.arr (a ++ [v]))))
             | _ => .error .notAnArray
       | none =>
           if p = "length" then
             -- `arr.length = []` coerces to 0; the subsequent `.push` on the
             -- numeric `length` value throws a TypeError; nonzero length is
             -- a truthy non-array.
             if xs.length == 0 then .error .typeError
             else .error .notAnArray
           else .ok (JVal.arr xs))  -- non-index property: dropped on persist
  | JVal.null => .error .notAnArray  -- the `!currentObject` guard fires
  | _ => .error .notAnArray  -- `typeof !== 'object'` guard (unreachable)

/-- Non-nested `add`/`subtract` branch:
`if (!file.hasOwnProperty(key)) file[key] = δ;
 else if (typeof file[key] !== 'number') throw; else file[key] += δ`. -/
def addFlat (δ : Int) (c : JVal) (key : String) : Except JErr JVal :=
  match c with
  | JVal.obj fields =>
      match lookupKV fields key with
      | none => .ok (JVal.obj (insertKV fields key (JVal.num δ)))
      | some (JVal.num n) => .ok (JVal.obj (insertKV fields key (JVal.num (n + δ))))
      | some _ => .error .nonNumericTarget
  | _ => .error .typeError  -- unreachable: the root document is a mapping

/-- Non-nested `push` branch:
`if (!file.hasOwnProperty(key)) file[key] = [v];
 else if (!Array.isArray(file[key])) throw; else file[key].push(v)`. -/
def pushFlat (v : JVal) (c : JVal) (key : String) : Except JErr JVal :=
  match c with
  | JVal.obj fields =>
      match lookupKV fields key with
      | none => .ok (JVal.obj (insertKV fields key (JVal.arr [v])))
      | some (JVal.arr a) => .ok (JVal.obj (insertKV fields key (JVal.arr (a ++ [v]))))
      | some _ => .error .notAnArray
  | _ => .error .typeError  -- unreachable: the root document is a mapping

/-- The read walk of `get`:
`if (!currentValue.hasOwnProperty(part)) return undefined;
 currentValue = currentValue[part];` — `hasOwnProperty` on `null` throws. -/
def getPath : JVal → List String → Except JErr (Option JVal)
  | c, [] => .ok (some c)
  | JVal.null, _ :: _ => .error .typeError
  | c, p :: rest =>
      match propOr c p with
      | none => .ok none
      | some x => getPath x rest

/-- Write a mutated child back along a walked path (in JS the mutation is in
place through a reference; on a string child, or an array non-index child,
nothing persisted changes). -/
def setChild (c : JVal) (p : String) (child : JVal) : JVal :=
  match c with
  | JVal.obj fields => JVal.obj (insertKV fields p child)
  | JVal.arr xs =>
      (match canonIndex p with
       | some i => JVal.arr (setIdx xs i child)
       | none => JVal.arr xs)
  | c' => c'

/-- The walk of `delete`: `hasOwnProperty` short-circuits to `false` on the
intermediates; a present terminal entry is removed from a mapping, becomes a
hole (persisted `null`) in an array, and fails silently (still reporting
`true` and writing) on array `length` or string properties. -/
def delPath : JVal → List String → Except JErr (JVal × Bool)
  | c, [] => .ok (c, false)  -- unreachable: split never yields an empty list
  | JVal.null, _ :: _ => .error .typeError
  | c, [p] =>
      if hasOwn c p then
        match c with
        | JVal.obj fields => .ok (JVal.obj (removeKV fields p), true)
        | JVal.arr xs =>
            (match canonIndex p with
             | some i => .ok (JVal.arr (setIdx xs i JVal.null), true)
             | none => .ok (JVal.arr xs, true))  -- `length`: silent failure
        | c' => .ok (c', true)  -- string property: silent failure
      else .ok (c, false)
  | c, p :: q :: rest =>
      if hasOwn c p then
        (delPath (propOrD c p) (q :: rest)).map
          (fun r => (setChild c p r.1, r.2))
      else .ok (c, false)

/-- The `callbackOrValue` argument of `pull`: either a literal value or a
predicate receiving `(element, index, array)`. -/
inductive PullArg where
  | value (v : JVal)
  | fn (f : JVal → Nat → List JVal → Bool)

/-- JS `===` between an externally supplied value and a freshly parsed array
element: value equality on primitives; an object or array argument is a
different reference from any parsed element, hence never equal. -/
def strictEqPrim : JVal → JVal → Bool
  | JVal.null, JVal.null => true
  | JVal.bool a, JVal.bool b => a == b
  | JVal.num a, JVal.num b => a == b
  | JVal.str a, JVal.str b => a == b
  | _, _ => false

/-- `array.indexOf(callbackOrValue)`: strict-equality search.  A function
argument is compared by reference against the parsed elements (which are
never functions), so it is never found. -/
def indexOfArg (arg : PullArg) (xs : List JVal) : Option Nat :=
  match arg with
  | PullArg.value v => xs.findIdx? (fun e => strictEqPrim e v)
  | PullArg.fn _ => none

/-- The per-element match used by the `pullAll` reduce: apply the callback,
or compare with `===`. -/
def matchesArg (arg : PullArg) (a : List JVal) (e : JVal) (i : Nat) : Bool :=
  match arg with
  | PullArg.fn f => f e i a
  | PullArg.value v => strictEqPrim e v

/-- Splicing the collected match indices in descending order removes exactly
the matched elements: keep each element whose index did not match. -/
def keepUnmatched (arg : PullArg) (a : List JVal) : List JVal :=
  (a.enum.filter (fun ei => !matchesArg arg a ei.2 ei.1)).map (fun ei => ei.2)

/-- The recursive `traverseAndPull` of `pull`, as a path rebuild returning
`(updated document, removed)`.  Intermediates require a present own property
of object type (else `NotAnArray`), the terminal must be an array; the write
of the whole (already fully mutated) document at each stack frame is
reconstructed by the caller from the `removed` flag. -/
def pullPath (arg : PullArg) (pullAll : Bool) :
    JVal → List String → Except JErr (JVal × Bool)
  | c, [] => .ok (c, false)  -- unreachable: split never yields an empty list
  | JVal.null, _ :: _ => .error .typeError
  | c, [p] =>
      (match propOr c p with
       | some (JVal.arr a) =>
           if pullAll then
             let keep := keepUnmatched arg a
             if keep.length == a.length then .ok (c, false)
             else .ok (setChild c p (JVal.arr keep), true)
           else
             match indexOfArg arg a with
             | some i => .ok (setChild c p (JVal.arr (a.eraseIdx i)), true)
             | none => .ok (c, false)
       | _ => .error .notAnArray)
  | c, p :: q :: rest =>
      (match propOr c p with
       | some x =>
           if typeofObject x then
             (pullPath arg pullAll x (q :: rest)).map
               (fun r => (setChild c p r.1, r.2))
           else .error .notAnArray
       | none => .error .notAnArray)

/-- Packaging of a mutating walk: a thrown error produces no write, success
writes the updated document once. -/
def pack (r : Except JErr JVal) : List JVal × Except JErr Unit :=
  match r with
  | .error e => ([], .error e)
  | .ok d => ([d], .ok ())

/-- Packaging of `delete`: write and report `true` only when removal was
reported. -/
def packDel (r : Except JErr (JVal × Bool)) : List JVal × Except JErr Bool :=
  match r with
  | .error e => ([], .error e)
  | .ok (d, true) => ([d], .ok true)
  | .ok (_, false) => ([], .ok false)

/-- Packaging of `pull`: on success the fully mutated document is written once
per stack frame (`n` = number of key parts), all writes identical because the
in-memory mutation happened before the first write. -/
def packPull (n : Nat) (r : Except JErr (JVal × Bool)) :
    List JVal × Except JErr Bool :=
  match r with
  | .error e => ([], .error e)
  | .ok (d, true) => (List.replicate n d, .ok true)
  | .ok (_, false) => ([], .ok false)

/-!  The public operations.  Each takes the current file content, the key,
per-call `nestedEnabled` and `separator` (already resolved from the instance
defaults), and returns the write trace paired with the outcome. -/

/-- `set(key, value, nestedEnabled, separator)`.  The non-nested branch
(`file[key] = value`) coincides with the walk on the single-segment list. -/
def set (file : JVal) (key : String) (value : JVal)
    (nestedEnabled : Bool) (separator : String) : List JVal × Except JErr Unit :=
  if key = "" then ([], .error .invalidKey)
  else pack (walkMut true (setTerm value) file (jparts key nestedEnabled separator))

/-- `get(key, nestedEnabled, separator)`; never writes.  The non-nested
branch (`return file[key]`) coincides with the walk on the single-segment
list, the root document being a mapping. -/
def get (file : JVal) (key : String)
    (nestedEnabled : Bool) (separator : String) :
    List JVal × Except JErr (Option JVal) :=
  if key = "" then ([], .error .invalidKey)
  else ([], getPath file (jparts key nestedEnabled separator))

/-- `fetch`: validates the key, then delegates to `get`. -/
def fetch (file : JVal) (key : String)
    (nestedEnabled : Bool) (separator : String) :
    List JVal × Except JErr (Option JVal) :=
  if key = "" then ([], .error .invalidKey)
  else get file key nestedEnabled separator

/-- `has`: `if (this.get(key, ...)) return true; else return false`. -/
def has (file : JVal) (key : String)
    (nestedEnabled : Bool) (separator : String) : List JVal × Except JErr Bool :=
  if key = "" then ([], .error .invalidKey)
  else ([], ((get file key nestedEnabled separator).2).map truthyO)

/-- `delete(key, nestedEnabled, separator)`.  The non-nested branch
(`hasOwnProperty` test on the root, then `delete file[key]`) coincides with
the terminal case of the walk on the single-segment list. -/
def delete (file : JVal) (key : String)
    (nestedEnabled : Bool) (separator : String) : List JVal × Except JErr Bool :=
  if key = "" then ([], .error .invalidKey)
  else packDel (delPath file (jparts key nestedEnabled separator))

/-- `add(key, value, nestedEnabled, separator)`. -/
def add (file : JVal) (key : String) (value : Int)
    (nestedEnabled : Bool) (separator : String) : List JVal × Except JErr Unit :=
  if key = "" then ([], .error .invalidKey)
  else pack
    (if nestedEnabled then
       walkMut false (addTerm value) file (jsSplit key separator)
     else addFlat value file key)

/-- `subtract(key, value, nestedEnabled, separator)`: the source duplicates
`add` with the operand negated (`= -value` on a falsy target, `-= value` on a
numeric one) and identical guards. -/
def subtract (file : JVal) (key : String) (value : Int)
    (nestedEnabled : Bool) (separator : String) : List JVal × Except JErr Unit :=
  if key = "" then ([], .error .invalidKey)
  else pack
    (if nestedEnabled then
       walkMut false (addTerm (-value)) file (jsSplit key separator)
     else addFlat (-value) file key)

/-- `push(key, value, nestedEnabled, separator)`. -/
def push (file : JVal) (key : String) (value : JVal)
    (nestedEnabled : Bool) (separator : String) : List JVal × Except JErr Unit :=
  if key = "" then ([], .error .invalidKey)
  else pack
    (if nestedEnabled then
       walkMut false (pushTerm value) file (jsSplit key separator)
     else pushFlat value file key)

/-- `pull(key, callbackOrValue, pullAll, nestedEnabled, separator)`. -/
def pull (file : JVal) (key : String) (arg : PullArg) (pullAll : Bool)
    (nestedEnabled : Bool) (separator : String) : List JVal × Except JErr Bool :=
  if key = "" then ([], .error .invalidKey)
  else
    let parts := jparts key nestedEnabled separator
    packPull parts.length (pullPath arg pullAll file parts)

/-- `all()`: the `{ID, data}` pairs of the top-level keys, in document
order; never writes. -/
def all (file : JVal) : List JVal × Except JErr (List (String × JVal)) :=
  ([], .ok (match file with
            | JVal.obj fields => fields
            | _ => []))

/-- `reset()`: unconditionally writes the empty mapping. -/
def reset : List JVal × Except JErr Unit :=
  ([JVal.obj []], .ok ())

/-!  Instance layer: the constructor-fixed defaults and the per-call override
mechanism (`nestedEnabled = this.#nestedEnabled`, `separator = this.#separator`
as parameter defaults). -/

/-- The configuration a `DataBase` instance holds in its private fields (the
file name only selects which file backs the store and plays no role in the
operational semantics). -/
structure DataBase where
  nestedEnabled : Bool
  separator : String

/-- A store together with the current content of its backing file. -/
structure DBState where
  inst : DataBase
  file : JVal

/-- Resolve a per-call `nestedEnabled` override against the defaults. -/
def resolveNested (d : DataBase) (o : Option Bool) : Bool :=
  o.getD d.nestedEnabled

/-- Resolve a per-call `separator` override against the defaults. -/
def resolveSep (d : DataBase) (o : Option String) : String :=
  o.getD d.separator

/-- Result value of an operation. -/
inductive Out where
  | unit
  | opt (v : Option JVal)
  | b (x : Bool)
  | entries (xs : List (String × JVal))

/-- One public method call, with its per-call overrides (`none` = use the
instance default). -/
inductive Op where
  | set (key : String) (v : JVal) (n : Option Bool) (s : Option String)
  | get (key : String) (n : Option Bool) (s : Option String)
  | fetch (key : String) (n : Option Bool) (s : Option String)
  | del (key : String) (n : Option Bool) (s : Option String)
  | has (key : String) (n : Option Bool) (s : Option String)
  | add (key : String) (v : Int) (n : Option Bool) (s : Option String)
  | subtract (key : String) (v : Int) (n : Option Bool) (s : Option String)
  | push (key : String) (v : JVal) (n : Option Bool) (s : Option String)
  | pull (key : String) (arg : PullArg) (pullAll : Bool)
      (n : Option Bool) (s : Option String)
  | all
  | reset

/-- `true` when the call passes no per-call overrides. -/
def noOverrides : Op → Bool
  | Op.set _ _ n s => n.isNone && s.isNone
  | Op.get _ n s => n.isNone && s.isNone
  | Op.fetch _ n s => n.isNone && s.isNone
  | Op.del _ n s => n.isNone && s.isNone
  | Op.has _ n s => n.isNone && s.isNone
  | Op.add _ _ n s => n.isNone && s.isNone
  | Op.subtract _ _ n s => n.isNone && s.isNone
  | Op.push _ _ n s => n.isNone && s.isNone
  | Op.pull _ _ _ n s => n.isNone && s.isNone
  | Op.all => true
  | Op.reset => true

/-- Dispatch one call: every method reads the current file, resolves the
per-call overrides against the instance defaults without touching them, and
the new file content is the last write (if any). -/
def DBState.call (st : DBState) : Op → DBState × (List JVal × Except JErr Out)
  | Op.set key v n s =>
      let r := set st.file key v (resolveNested st.inst n) (resolveSep st.inst s)
      (⟨st.inst, fileAfter st.file r.1⟩, (r.1, r.2.map fun _ => Out.unit))
  | Op.get key n s =>
      let r := get st.file key (resolveNested st.inst n) (resolveSep st.inst s)
      (⟨st.inst, fileAfter st.file r.1⟩, (r.1, r.2.map Out.opt))
  | Op.fetch key n s =>
      let r := fetch st.file key (resolveNested st.inst n) (resolveSep st.inst s)
      (⟨st.inst, fileAfter st.file r.1⟩, (r.1, r.2.map Out.opt))
  | Op.del key n s =>
      let r := delete st.file key (resolveNested st.inst n) (resolveSep st.inst s)
      (⟨st.inst, fileAfter st.file r.1⟩, (r.1, r.2.map Out.b))
  | Op.has key n s =>
      let r := has st.file key (resolveNested st.inst n) (resolveSep st.inst s)
      (⟨st.inst, fileAfter st.file r.1⟩, (r.1, r.2.map Out.b))
  | Op.add key v n s =>
      let r := add st.file key v (resolveNested st.inst n) (resolveSep st.inst s)
      (⟨st.inst, fileAfter st.file r.1⟩, (r.1, r.2.map fun _ => Out.unit))
  | Op.subtract key v n s =>
      let r := subtract st.file key v (resolveNested st.inst n) (resolveSep st.inst s)
      (⟨st.inst, fileAfter st.file r.1⟩, (r.1, r.2.map fun _ => Out.unit))
  | Op.push key v n s =>
      let r := push st.file key v (resolveNested st.inst n) (resolveSep st.inst s)
      (⟨st.inst, fileAfter st.file r.1⟩, (r.1, r.2.map fun _ => Out.unit))
  | Op.pull key arg pa n s =>
      let r := pull st.file key arg pa (resolveNested st.inst n) (resolveSep st.inst s)
      (⟨st.inst, fileAfter st.file r.1⟩, (r.1, r.2.map Out.b))
  | Op.all =>
      let r := all st.file
      (⟨st.inst, fileAfter st.file r.1⟩, (r.1, r.2.map Out.entries))
  | Op.reset =>
      let r := reset
      (⟨st.inst, fileAfter st.file r.1⟩, (r.1, r.2.map fun _ => Out.unit))

/-- The error kinds that are `DatabaseError`s of the library (as opposed to
raw JS `TypeError`/`RangeError`). -/
def isDBErr : JErr → Bool
  | JErr.typeError => false
  | JErr.rangeError => false
  | _ => true

/-!  Side conditions used by the amended claims. -/

/-- The `set` walk stays inside plain mappings: every intermediate entry is
absent, falsy (then overwritten with `{}`), or itself a mapping, and the
terminal container is a mapping.  This is the region where the set/get
round-trip is exact (arrays en route lose non-index assignments to
serialization). -/
def okWalk : JVal → List String → Bool
  | JVal.obj _, [_] => true
  | JVal.obj fields, p :: q :: rest =>
      (match lookupKV fields p with
       | none => okWalk (JVal.obj []) (q :: rest)
       | some cur =>
           if truthy cur then
             match cur with
             | JVal.obj g => okWalk (JVal.obj g) (q :: rest)
             | _ => false
           else okWalk (JVal.obj []) (q :: rest))
  | _, _ => false

/-- Terminal container of the `hasOwnProperty`-flavoured walk, when the walk
stays inside plain mappings (absent entries become `{}`): the fields of the
container the terminal effect applies to, and the last segment. -/
def termC : JVal → List String → Option (List (String × JVal) × String)
  | JVal.obj fields, [p] => some (fields, p)
  | JVal.obj fields, p :: q :: rest =>
      (match lookupKV fields p with
       | none => termC (JVal.obj []) (q :: rest)
       | some (JVal.obj g) => termC (JVal.obj g) (q :: rest)
       | some _ => none)
  | _, _ => none

/-- At most one entry of the association list carries the key (always true
for a parsed JSON mapping). -/
def keyOnce (fields : List (String × JVal)) (key : String) : Bool :=
  decide ((fields.filter (fun kv => kv.1 == key)).length ≤ 1)

/-- The `delete` walk is benign: it never calls `hasOwnProperty` on `null`,
and whenever an own property is found the walk continues into it through
plain mappings only, with a duplicate-free terminal mapping. -/
def delOk : JVal → List String → Bool
  | JVal.obj fields, [p] => keyOnce fields p
  | JVal.obj fields, p :: q :: rest =>
      (match lookupKV fields p with
       | none => true
       | some x => delOk x (q :: rest))
  | JVal.null, _ :: _ => false
  | c, p :: _ => !hasOwn c p
  | _, [] => true

/-- Whether `delete`'s walk finds the terminal entry present (own property at
every step including the last). -/
def delPresent : JVal → List String → Bool
  | c, [p] => hasOwn c p
  | c, p :: q :: rest => hasOwn c p && delPresent (propOrD c p) (q :: rest)
  | _, [] => false

/-- The `get` walk never dereferences `null` (the only situation in which
`get`/`fetch` can throw). -/
def noNullWalk : JVal → List String → Bool
  | _, [] => true
  | c, p :: rest =>
      !isNull c &&
        (match propOr c p with
         | none => true
         | some x => noNullWalk x rest)

/-- The spec's description of `get`: return `undefined` as soon as a segment
is absent, otherwise the terminal value (stated without any possibility of
throwing).  Used as the reference point the amended C5 compares `get`
against. -/
def specGet : JVal → List String → Option JVal
  | c, [] => some c
  | c, p :: rest =>
      match propOr c p with
      | none => none
      | some x => specGet x rest

/-!  Helper lemmas. -/

theorem lookup_insertKV (fields : List (String × JVal)) (k : String) (v : JVal) :
    lookupKV (insertKV fields k v) k = some v := by
  induction fields with
  | nil => simp [insertKV, lookupKV]
  | cons kv rest ih =>
    obtain ⟨k', w⟩ := kv
    by_cases h : k' = k
    · subst h; simp [insertKV, lookupKV]
    · simp [insertKV, lookupKV, h, ih]

theorem insertKV_self (fields : List (String × JVal)) (k : String) (v : JVal)
    (h : lookupKV fields k = some v) : insertKV fields k v = fields := by
  induction fields with
  | nil => simp [lookupKV] at h
  | cons kv rest ih =>
    obtain ⟨k', w⟩ := kv
    by_cases hk : k' = k
    · subst hk
      simp [lookupKV] at h
      simp [insertKV, h]
    · simp [lookupKV, hk] at h
      simp [insertKV, hk, ih h]

theorem lookup_none_of_filter_nil (fields : List (String × JVal)) (k : String)
    (h : fields.filter (fun kv => kv.1 == k) = []) :
    lookupKV fields k = none := by
  induction fields with
  | nil => simp [lookupKV]
  | cons kv rest ih =>
    obtain ⟨k', w⟩ := kv
    by_cases hk : k' = k
    · subst hk
      rw [List.filter_cons_of_pos (by simp)] at h
      exact absurd h (List.cons_ne_nil _ _)
    · rw [List.filter_cons_of_neg (by simp [hk])] at h
      simp [lookupKV, hk, ih h]

theorem lookup_removeKV_aux : ∀ (fields : List (String × JVal)) (k : String),
    (fields.filter (fun kv => kv.1 == k)).length ≤ 1 →
    lookupKV (removeKV fields k) k = none := by
  intro fields k
  induction fields with
  | nil => intro _; simp [removeKV, lookupKV]
  | cons kv rest ih =>
    obtain ⟨k', w⟩ := kv
    intro h
    by_cases hk : k' = k
    · subst hk
      rw [List.filter_cons_of_pos (by simp)] at h
      simp only [List.length_cons] at h
      have h0 : rest.filter (fun kv => kv.1 == k') = [] :=
        List.length_eq_zero.mp (by omega)
      simp only [removeKV, if_pos rfl]
      exact lookup_none_of_filter_nil rest k' h0
    · rw [List.filter_cons_of_neg (by simp [hk])] at h
      simp only [removeKV, if_neg hk, lookupKV]
      exact ih h

theorem lookup_removeKV (fields : List (String × JVal)) (k : String)
    (h : keyOnce fields k = true) :
    lookupKV (removeKV fields k) k = none :=
  lookup_removeKV_aux fields k (of_decide_eq_true h)

/-- On a walk that never dereferences `null`, `get`'s loop cannot throw and
computes exactly the spec-side `specGet`. -/
theorem getPath_eq_specGet : ∀ (parts : List String) (c : JVal),
    noNullWalk c parts = true → getPath c parts = .ok (specGet c parts) := by
  intro parts
  induction parts with
  | nil => intro c _; simp [getPath, specGet]
  | cons p rest ih =>
    intro c h
    simp only [noNullWalk, Bool.and_eq_true] at h
    obtain ⟨hnn, hrest⟩ := h
    have hc : ¬ (c = JVal.null) := by
      intro hc; subst hc; simp [isNull] at hnn
    cases c with
    | null => exact absurd rfl hc
    | bool b => simp [getPath, specGet, propOr]
    | num n => simp [getPath, specGet, propOr]
    | str s =>
      simp only [getPath, specGet]
      cases hx : propOr (JVal.str s) p with
      | none => simp
      | some x =>
        rw [hx] at hrest
        simp [ih x hrest]
    | arr xs =>
      simp only [getPath, specGet]
      cases hx : propOr (JVal.arr xs) p with
      | none => simp
      | some x =>
        rw [hx] at hrest
        simp [ih x hrest]
    | obj fields =>
      simp only [getPath, specGet]
      cases hx : propOr (JVal.obj fields) p with
      | none => simp
      | some x =>
        rw [hx] at hrest
        simp [ih x hrest]

/-- On an `okWalk` path (mappings all the way down), the `set` walk succeeds
and a subsequent `get` walk over the same segments reads back exactly the
written value. -/
theorem okWalk_set_get (v : JVal) : ∀ (parts : List String) (c : JVal),
    okWalk c parts = true →
    ∃ c', walkMut true (setTerm v) c parts = .ok c' ∧
      getPath c' parts = .ok (some v) := by
  intro parts
  induction parts with
  | nil => intro c h; cases c <;> simp [okWalk] at h
  | cons p rest ih =>
    intro c h
    cases rest with
    | nil =>
      cases c <;> simp [okWalk] at h
      case obj fields =>
        refine ⟨JVal.obj (insertKV fields p v), rfl, ?_⟩
        simp [getPath, propOr, lookup_insertKV]
    | cons q rest' =>
      cases c with
      | null => simp [okWalk] at h
      | bool b => simp [okWalk] at h
      | num n => simp [okWalk] at h
      | str s => simp [okWalk] at h
      | arr xs => simp [okWalk] at h
      | obj fields =>
        simp only [okWalk] at h
        have fresh : truthyO (lookupKV fields p) = false →
            okWalk (JVal.obj []) (q :: rest') = true →
            ∃ c', walkMut true (setTerm v) (JVal.obj fields) (p :: q :: rest') =
                .ok c' ∧
              getPath c' (p :: q :: rest') = .ok (some v) := by
          intro hf hok
          obtain ⟨c', hw, hg⟩ := ih (JVal.obj []) hok
          refine ⟨JVal.obj (insertKV fields p c'), ?_, ?_⟩
          · simp [walkMut, hf, hw, Except.map]
          · simp [getPath, propOr, lookup_insertKV, hg]
        cases hcur : lookupKV fields p with
        | none =>
          rw [hcur] at h
          exact fresh (by simp [hcur, truthyO]) h
        | some cur =>
          rw [hcur] at h
          cases cur with
          | null => exact fresh (by simp [hcur, truthyO, truthy]) (by simpa [truthy] using h)
          | arr xs => simp [truthy] at h
          | bool b =>
            cases b with
            | false => exact fresh (by simp [hcur, truthyO, truthy]) (by simpa [truthy] using h)
            | true => simp [truthy] at h
          | num n =>
            by_cases hn : n = 0
            · subst hn
              exact fresh (by simp [hcur, truthyO, truthy]) (by simpa [truthy] using h)
            · simp [truthy, hn] at h
          | str s =>
            by_cases hs : s = ""
            · subst hs
              exact fresh (by simp [hcur, truthyO, truthy]) (by simpa [truthy] using h)
            · simp [truthy, hs] at h
          | obj g =>
            have h' : okWalk (JVal.obj g) (q :: rest') = true := by
              simpa [truthy] using h
            obtain ⟨c', hw, hg⟩ := ih (JVal.obj g) h'
            refine ⟨JVal.obj (insertKV fields p c'), ?_, ?_⟩
            · simp [walkMut, hcur, truthyO, truthy, typeofObjectO, typeofObject,
                hw, Except.map]
            · simp [getPath, propOr, lookup_insertKV, hg]

/-- On a `termC` path the `hasOwnProperty`-flavoured walk propagates a
terminal-handler error unchanged. -/
theorem termC_walk_err (term : JVal → String → Except JErr JVal) :
    ∀ (parts : List String) (c : JVal) (fs : List (String × JVal)) (p : String)
      (e : JErr),
    termC c parts = some (fs, p) → term (JVal.obj fs) p = .error e →
    walkMut false term c parts = .error e := by
  intro parts
  induction parts with
  | nil => intro c fs p e h _; cases c <;> simp [termC] at h
  | cons p0 rest ih =>
    intro c fs p e h hterm
    cases rest with
    | nil =>
      cases c <;> simp [termC] at h
      case obj fields =>
        obtain ⟨hfs, hp⟩ := h
        subst hfs; subst hp
        simpa [walkMut] using hterm
    | cons q rest' =>
      cases c with
      | null => simp [termC] at h
      | bool b => simp [termC] at h
      | num n => simp [termC] at h
      | str s => simp [termC] at h
      | arr xs => simp [termC] at h
      | obj fields =>
        simp only [termC] at h
        cases hcur : lookupKV fields p0 with
        | none =>
          rw [hcur] at h
          have hrec := ih (JVal.obj []) fs p e h hterm
          simp [walkMut, hcur, hrec, Except.map]
        | some cur =>
          rw [hcur] at h
          cases cur with
          | null => simp at h
          | bool b => simp at h
          | num n => simp at h
          | str s => simp at h
          | arr xs => simp at h
          | obj g =>
            have hrec := ih (JVal.obj g) fs p e h hterm
            simp [walkMut, hcur, truthyO, typeofObjectO, typeofObject, hrec,
              Except.map]

/-- On a `termC` path, when the terminal handler rewrites the terminal
mapping entry `p` to `w`, the walk succeeds and a subsequent `get` walk over
the same segments reads `w` back. -/
theorem termC_walk_ok (term : JVal → String → Except JErr JVal) :
    ∀ (parts : List String) (c : JVal) (fs : List (String × JVal)) (p : String)
      (w : JVal),
    termC c parts = some (fs, p) →
    term (JVal.obj fs) p = .ok (JVal.obj (insertKV fs p w)) →
    ∃ d, walkMut false term c parts = .ok d ∧
      getPath d parts = .ok (some w) := by
  intro parts
  induction parts with
  | nil => intro c fs p w h _; cases c <;> simp [termC] at h
  | cons p0 rest ih =>
    intro c fs p w h hterm
    cases rest with
    | nil =>
      cases c <;> simp [termC] at h
      case obj fields =>
        obtain ⟨hfs, hp⟩ := h
        subst hfs; subst hp
        refine ⟨JVal.obj (insertKV fields p0 w), by simpa [walkMut] using hterm, ?_⟩
        simp [getPath, propOr, lookup_insertKV]
    | cons q rest' =>
      cases c with
      | null => simp [termC] at h
      | bool b => simp [termC] at h
      | num n => simp [termC] at h
      | str s => simp [termC] at h
      | arr xs => simp [termC] at h
      | obj fields =>
        simp only [termC] at h
        cases hcur : lookupKV fields p0 with
        | none =>
          rw [hcur] at h
          obtain ⟨d, hw, hg⟩ := ih (JVal.obj []) fs p w h hterm
          refine ⟨JVal.obj (insertKV fields p0 d), ?_, ?_⟩
          · simp [walkMut, hcur, hw, Except.map]
          · simp [getPath, propOr, lookup_insertKV, hg]
        | some cur =>
          rw [hcur] at h
          cases cur with
          | null => simp at h
          | bool b => simp at h
          | num n => simp at h
          | str s => simp at h
          | arr xs => simp at h
          | obj g =>
            obtain ⟨d, hw, hg⟩ := ih (JVal.obj g) fs p w h hterm
            refine ⟨JVal.obj (insertKV fields p0 d), ?_, ?_⟩
            · simp [walkMut, hcur, truthyO, typeofObjectO, typeofObject, hw,
                Except.map]
            · simp [getPath, propOr, lookup_insertKV, hg]

/-- On a benign `delete` walk: an absent terminal (or a short-circuit on the
way) yields `(document unchanged, false)`; a present terminal entry is
removed, and a `get` walk over the same segments then reports it absent. -/
theorem delOk_delPath : ∀ (parts : List String) (c : JVal),
    delOk c parts = true →
    (delPresent c parts = false → delPath c parts = .ok (c, false)) ∧
    (delPresent c parts = true →
      ∃ c', delPath c parts = .ok (c', true) ∧
        getPath c' parts = .ok none) := by
  intro parts
  induction parts with
  | nil =>
    intro c h
    constructor
    · intro _; cases c <;> rfl
    · intro hp; cases c <;> simp [delPresent] at hp
  | cons p rest ih =>
    intro c h
    cases rest with
    | nil =>
      constructor
      · intro hp
        simp only [delPresent] at hp
        cases c with
        | null => simp [delOk] at h
        | obj fields => simp [delPath, hp]
        | arr xs => simp [delPath, hp]
        | str s => simp [delPath, hp]
        | num n => simp [delPath, hp]
        | bool b => simp [delPath, hp]
      · intro hp
        simp only [delPresent] at hp
        cases c with
        | null => simp [delOk] at h
        | obj fields =>
          refine ⟨JVal.obj (removeKV fields p), by simp [delPath, hp], ?_⟩
          have honce : keyOnce fields p = true := by simpa [delOk] using h
          simp [getPath, propOr, lookup_removeKV fields p honce]
        | arr xs => simp [delOk] at h; exact absurd hp (by simp [h])
        | str s => simp [delOk] at h; exact absurd hp (by simp [h])
        | num n => simp [hasOwn, propOr] at hp
        | bool b => simp [hasOwn, propOr] at hp
    | cons q rest' =>
      constructor
      · intro hp
        simp only [delPresent, Bool.and_eq_false_iff] at hp
        cases hp with
        | inl hno =>
          cases c with
          | null => simp [delOk] at h
          | obj fields => simp [delPath, hno]
          | arr xs => simp [delPath, hno]
          | str s => simp [delPath, hno]
          | num n => simp [delPath, hno]
          | bool b => simp [delPath, hno]
        | inr hrec =>
          by_cases hho : hasOwn c p = true
          · cases c with
            | null => simp [delOk] at h
            | obj fields =>
              have hx : ∃ x, lookupKV fields p = some x := by
                simpa [hasOwn, propOr, Option.isSome_iff_exists] using hho
              obtain ⟨x, hx⟩ := hx
              have hdel : delOk x (q :: rest') = true := by
                have := h
                simp only [delOk] at this
                rwa [hx] at this
              have hd : propOrD (JVal.obj fields) p = x := by
                simp [propOrD, propOr, hx]
              have hrec' : delPresent x (q :: rest') = false := by
                rw [← hd]; exact hrec
              have := (ih x hdel).1 hrec'
              simp [delPath, hho, hd, this, Except.map, setChild, propOr, hx,
                insertKV_self fields p x hx]
            | arr xs => simp [delOk, hho] at h
            | str s => simp [delOk, hho] at h
            | num n => simp [hasOwn, propOr] at hho
            | bool b => simp [hasOwn, propOr] at hho
          · have hho' : hasOwn c p = false := by
              cases hb : hasOwn c p
              · rfl
              · exact absurd hb hho
            cases c with
            | null => simp [delOk] at h
            | obj fields => simp [delPath, hho']
            | arr xs => simp [delPath, hho']
            | str s => simp [delPath, hho']
            | num n => simp [delPath, hho']
            | bool b => simp [delPath, hho']
      · intro hp
        simp only [delPresent, Bool.and_eq_true] at hp
        obtain ⟨hho, hrec⟩ := hp
        cases c with
        | null => simp [delOk] at h
        | num n => simp [hasOwn, propOr] at hho
        | bool b => simp [hasOwn, propOr] at hho
        | arr xs => simp [delOk, hho] at h
        | str s => simp [delOk, hho] at h
        | obj fields =>
          have hx : ∃ x, lookupKV fields p = some x := by
            simpa [hasOwn, propOr, Option.isSome_iff_exists] using hho
          obtain ⟨x, hx⟩ := hx
          have hdel : delOk x (q :: rest') = true := by
            have := h
            simp only [delOk] at this
            rwa [hx] at this
          have hd : propOrD (JVal.obj fields) p = x := by
            simp [propOrD, propOr, hx]
          have hrec' : delPresent x (q :: rest') = true := by
            rw [← hd]; exact hrec
          obtain ⟨x', hw, hg⟩ := (ih x hdel).2 hrec'
          refine ⟨JVal.obj (insertKV fields p x'), ?_, ?_⟩
          · simp [delPath, hho, hd, hw, Except.map, setChild]
          · simp [getPath, propOr, lookup_insertKV, hg]

/-!  Claim results. -/

/-- Claim C1, counterexample.  The set/get round-trip fails when the walk
enters an array and the terminal segment is not an array index: on the
document `{"a": []}` with key `"a..x"`, `set` succeeds (the in-memory
assignment lands on a non-index array property that `JSON.stringify` drops),
and the subsequent `get` returns `undefined` instead of the written value,
even though the traversal of the intermediate segment did not fail. -/
theorem C1_counterexample :
    (set (JVal.obj [("a", JVal.arr [])]) "a..x" (JVal.num 1) true "..").2 =
      .ok () ∧
    get (fileAfter (JVal.obj [("a", JVal.arr [])])
        (set (JVal.obj [("a", JVal.arr [])]) "a..x" (JVal.num 1) true "..").1)
      "a..x" true ".." = ([], .ok none) ∧
    get (fileAfter (JVal.obj [("a", JVal.arr [])])
        (set (JVal.obj [("a", JVal.arr [])]) "a..x" (JVal.num 1) true "..").1)
      "a..x" true ".." ≠ ([], .ok (some (JVal.num 1))) := by
  refine ⟨rfl, rfl, ?_⟩
  intro hcontra
  rw [show get (fileAfter (JVal.obj [("a", JVal.arr [])])
        (set (JVal.obj [("a", JVal.arr [])]) "a..x" (JVal.num 1) true "..").1)
      "a..x" true ".." = ([], .ok none) from rfl] at hcontra
  simp at hcontra

/-- Claim C1 (amended): for every string key and value, `set(k, v)` followed
by `get(k)` (same nested flag and separator) returns exactly `v`, provided
the walk stays inside plain mappings: every intermediate entry is absent,
falsy, or a mapping, and the terminal container is a mapping (`okWalk`).  In
particular this always holds in non-nested mode, and in nested mode whenever
no array is entered along the path. -/
theorem C1_set_get_roundtrip (fields : List (String × JVal)) (key : String)
    (v : JVal) (nested : Bool) (sep : String)
    (hkey : key ≠ "")
    (hwalk : okWalk (JVal.obj fields) (jparts key nested sep) = true) :
    (set (JVal.obj fields) key v nested sep).2 = .ok () ∧
    get (fileAfter (JVal.obj fields)
        (set (JVal.obj fields) key v nested sep).1) key nested sep =
      ([], .ok (some v)) := by
  obtain ⟨c', hw, hg⟩ :=
    okWalk_set_get v (jparts key nested sep) (JVal.obj fields) hwalk
  have hset : set (JVal.obj fields) key v nested sep = ([c'], .ok ()) := by
    simp [set, hkey, hw, pack]
  constructor
  · simp [hset]
  · simp [hset, fileAfter, get, hkey, hg]

/-- Claim C1, witness: a concrete nested round-trip through the amended
theorem. -/
theorem C1_witness :
    ("a..b" ≠ "" ∧
      okWalk (JVal.obj []) (jparts "a..b" true "..") = true) ∧
    ((set (JVal.obj []) "a..b" (JVal.num 7) true "..").2 = .ok () ∧
      get (fileAfter (JVal.obj [])
          (set (JVal.obj []) "a..b" (JVal.num 7) true "..").1) "a..b" true ".." =
        ([], .ok (some (JVal.num 7)))) :=
  ⟨⟨by decide, rfl⟩,
   C1_set_get_roundtrip [] "a..b" (JVal.num 7) true ".." (by decide) rfl⟩

/-- Claim C2, evaluation at the failing input.  With `pullAll = false` the
code uses `array.indexOf(callbackOrValue)`, which compares the callback
function itself against the elements instead of applying it: on
`{"arr": [11, 12]}` with the predicate `el => el > 10` (which matches the
first element, as the second conjunct shows), `pull` returns `false` and
performs no write, contradicting both the claim and the method's own
documentation example. -/
theorem C2_pull_callback_noop :
    pull (JVal.obj [("arr", JVal.arr [JVal.num 11, JVal.num 12])]) "arr"
      (PullArg.fn (fun e _ _ =>
        match e with
        | JVal.num m => decide (10 < m)
        | _ => false)) false true ".." = ([], .ok false) ∧
    matchesArg
      (PullArg.fn (fun e _ _ =>
        match e with
        | JVal.num m => decide (10 < m)
        | _ => false))
      [JVal.num 11, JVal.num 12] (JVal.num 11) 0 = true :=
  ⟨rfl, rfl⟩

/-- Claim C4, counterexample.  For `set` the intermediate test is truthiness,
not existence: on `{"a": 0}` the segment `a` exists and holds the non-mapping
`0`, yet `set("a..b", 1)` does not fail with `CannotCreateProperty` — it
overwrites `0` with a fresh mapping and succeeds. -/
theorem C4_counterexample :
    set (JVal.obj [("a", JVal.num 0)]) "a..b" (JVal.num 1) true ".." =
      ([JVal.obj [("a", JVal.obj [("b", JVal.num 1)])]], .ok ()) ∧
    (set (JVal.obj [("a", JVal.num 0)]) "a..b" (JVal.num 1) true "..").2 ≠
      .error .cannotCreateProperty := by
  refine ⟨rfl, ?_⟩
  intro h
  rw [show (set (JVal.obj [("a", JVal.num 0)]) "a..b" (JVal.num 1) true "..").2 =
      .ok () from rfl] at h
  simp at h

/-- Claim C4 (amended): in nested mode, at a mapping with a non-terminal
segment `p`: for `add`/`subtract`/`push`, a missing `p` gets a fresh empty
mapping and the walk continues, while a present `p` holding a value that is
neither a mapping, an array, nor `null` fails with `CannotCreateProperty`
(arrays and `null` are descended into instead, since `typeof` calls them
objects).  For `set` the test is truthiness rather than existence: a falsy
entry (including the present values `0`, `""`, `false`, `null`) is replaced
by a fresh empty mapping, and only a truthy non-object fails
`CannotCreateProperty`. -/
theorem C4_intermediate_policy (fields : List (String × JVal)) (p q : String)
    (rest : List String) (v : JVal) (n : Int) :
    (lookupKV fields p = none →
      walkMut false (addTerm n) (JVal.obj fields) (p :: q :: rest) =
        (walkMut false (addTerm n) (JVal.obj []) (q :: rest)).map
          (fun child => JVal.obj (insertKV fields p child)) ∧
      walkMut false (addTerm (-n)) (JVal.obj fields) (p :: q :: rest) =
        (walkMut false (addTerm (-n)) (JVal.obj []) (q :: rest)).map
          (fun child => JVal.obj (insertKV fields p child)) ∧
      walkMut false (pushTerm v) (JVal.obj fields) (p :: q :: rest) =
        (walkMut false (pushTerm v) (JVal.obj []) (q :: rest)).map
          (fun child => JVal.obj (insertKV fields p child))) ∧
    (∀ w, lookupKV fields p = some w → typeofObject w = false →
      walkMut false (addTerm n) (JVal.obj fields) (p :: q :: rest) =
        .error .cannotCreateProperty ∧
      walkMut false (addTerm (-n)) (JVal.obj fields) (p :: q :: rest) =
        .error .cannotCreateProperty ∧
      walkMut false (pushTerm v) (JVal.obj fields) (p :: q :: rest) =
        .error .cannotCreateProperty) ∧
    (∀ w, lookupKV fields p = some w → truthy w = false →
      walkMut true (setTerm v) (JVal.obj fields) (p :: q :: rest) =
        (walkMut true (setTerm v) (JVal.obj []) (q :: rest)).map
          (fun child => JVal.obj (insertKV fields p child))) ∧
    (∀ w, lookupKV fields p = some w → truthy w = true →
        typeofObject w = false →
      walkMut true (setTerm v) (JVal.obj fields) (p :: q :: rest) =
        .error .cannotCreateProperty) := by
  refine ⟨?_, ?_, ?_, ?_⟩
  · intro hnone
    refine ⟨?_, ?_, ?_⟩ <;> simp [walkMut, hnone]
  · intro w hw htype
    refine ⟨?_, ?_, ?_⟩ <;>
      simp [walkMut, hw, truthyO, typeofObjectO, htype]
  · intro w hw hfalsy
    simp [walkMut, hw, truthyO, hfalsy]
  · intro w hw htr htype
    simp [walkMut, hw, truthyO, htr, typeofObjectO, htype]

/-- Claim C4, witness: a present numeric intermediate makes `add` fail with
`CannotCreateProperty`, by the amended theorem. -/
theorem C4_witness :
    (lookupKV [("x", JVal.num 5)] "x" = some (JVal.num 5) ∧
      typeofObject (JVal.num 5) = false) ∧
    walkMut false (addTerm 1) (JVal.obj [("x", JVal.num 5)]) ["x", "y"] =
      .error .cannotCreateProperty :=
  ⟨⟨rfl, rfl⟩,
   ((C4_intermediate_policy [("x", JVal.num 5)] "x" "y" [] (JVal.num 0) 1).2.1
     (JVal.num 5) rfl rfl).1⟩

/-- Claim C5, counterexample.  `get` (and `fetch`) can throw: on
`{"a": null}` with key `"a..b"`, the loop reaches the stored `null` and calls
`null.hasOwnProperty`, raising a JS `TypeError` instead of returning
`undefined`. -/
theorem C5_counterexample :
    get (JVal.obj [("a", JVal.null)]) "a..b" true ".." =
      ([], .error .typeError) ∧
    fetch (JVal.obj [("a", JVal.null)]) "a..b" true ".." =
      ([], .error .typeError) :=
  ⟨rfl, rfl⟩

/-- Claim C5 (amended): `get` and `fetch` never write and never throw
provided the walk never dereferences a stored `null`; under that proviso they
return `undefined` as soon as a segment is absent at the current position and
the terminal value otherwise (the spec-side `specGet`).  When a `null` is
dereferenced with segments remaining, the own-property check itself throws a
JS `TypeError`. -/
theorem C5_get_no_throw (file : JVal) (key : String) (nested : Bool)
    (sep : String) (hkey : key ≠ "")
    (hnn : noNullWalk file (jparts key nested sep) = true) :
    get file key nested sep =
      ([], .ok (specGet file (jparts key nested sep))) ∧
    fetch file key nested sep =
      ([], .ok (specGet file (jparts key nested sep))) := by
  have hg := getPath_eq_specGet (jparts key nested sep) file hnn
  constructor
  · simp [get, hkey, hg]
  · simp [fetch, get, hkey, hg]

/-- Claim C5, witness: a concrete two-level read through the amended
theorem. -/
theorem C5_witness :
    ("a..b" ≠ "" ∧
      noNullWalk (JVal.obj [("a", JVal.obj [("b", JVal.num 3)])])
        (jparts "a..b" true "..") = true ∧
      specGet (JVal.obj [("a", JVal.obj [("b", JVal.num 3)])])
        (jparts "a..b" true "..") = some (JVal.num 3)) ∧
    get (JVal.obj [("a", JVal.obj [("b", JVal.num 3)])]) "a..b" true ".." =
      ([], .ok (specGet (JVal.obj [("a", JVal.obj [("b", JVal.num 3)])])
        (jparts "a..b" true ".."))) :=
  ⟨⟨by decide, rfl, rfl⟩,
   (C5_get_no_throw (JVal.obj [("a", JVal.obj [("b", JVal.num 3)])]) "a..b"
     true ".." (by decide) rfl).1⟩

/-- Claim C6 (confirmed): `has` returns `true` exactly when `get` (same
nested flag and separator) returns a truthy value; in particular a stored
falsy value (`0`, `""`, `false`, `null` — and `undefined`, i.e. an absent
key) makes `has` report `false`. -/
theorem C6_has_iff_truthy_get (file : JVal) (key : String) (nested : Bool)
    (sep : String) :
    ((has file key nested sep).2 = .ok true ↔
      (∃ v, (get file key nested sep).2 = .ok (some v) ∧ truthy v = true)) ∧
    (∀ v, (get file key nested sep).2 = .ok (some v) → truthy v = false →
      (has file key nested sep).2 = .ok false) := by
  by_cases hkey : key = ""
  · subst hkey
    constructor
    · simp [has, get]
    · intro v hv
      simp [get] at hv
  · constructor
    · constructor
      · intro h
        simp only [has, if_neg hkey] at h
        cases hg : (get file key nested sep).2 with
        | error e => rw [hg] at h; simp [Except.map] at h
        | ok o =>
          rw [hg] at h
          simp [Except.map] at h
          cases o with
          | none => simp [truthyO] at h
          | some v => exact ⟨v, rfl, by simpa [truthyO] using h⟩
      · rintro ⟨v, hv, htr⟩
        simp [has, hkey, hv, Except.map, truthyO, htr]
    · intro v hv htr
      simp [has, hkey, hv, Except.map, truthyO, htr]

/-- Claim C6, witness: a stored `0` is reported absent by `has`, through the
confirmed theorem. -/
theorem C6_witness :
    ((get (JVal.obj [("a", JVal.num 0)]) "a" true "..").2 =
        .ok (some (JVal.num 0)) ∧
      truthy (JVal.num 0) = false) ∧
    (has (JVal.obj [("a", JVal.num 0)]) "a" true "..").2 = .ok false :=
  ⟨⟨rfl, rfl⟩,
   (C6_has_iff_truthy_get (JVal.obj [("a", JVal.num 0)]) "a" true "..").2
     (JVal.num 0) rfl rfl⟩

/-- Claim C3, counterexample.  In nested mode the terminal test of `add` is
truthiness, not presence: on `{"a": ""}` (terminal present and non-numeric)
`add("a", 5)` does not fail with `NonNumericTarget` — it overwrites the empty
string with `5` — while the very same call in non-nested mode does fail, so
the two modes are not identical either. -/
theorem C3_counterexample :
    add (JVal.obj [("a", JVal.str "")]) "a" 5 true ".." =
      ([JVal.obj [("a", JVal.num 5)]], .ok ()) ∧
    (add (JVal.obj [("a", JVal.str "")]) "a" 5 true "..").2 ≠
      .error .nonNumericTarget ∧
    add (JVal.obj [("a", JVal.str "")]) "a" 5 false ".." =
      ([], .error .nonNumericTarget) := by
  refine ⟨rfl, ?_, rfl⟩
  intro h
  rw [show (add (JVal.obj [("a", JVal.str "")]) "a" 5 true "..").2 =
      .ok () from rfl] at h
  simp at h

/-- Claim C3 (amended): for `add(key, n)`/`subtract(key, n)` whose
intermediate traversal succeeds through plain mappings into a mapping
terminal container (`termC`): in nested mode the absence test is truthiness —
a falsy terminal (absent, or holding `0`, `""`, `false`, `null`) is
overwritten with `+n`/`-n`, a numeric terminal is incremented/decremented in
place (`0` coincides with the overwrite), and a truthy non-numeric terminal
fails with `NonNumericTarget`.  In non-nested mode the test is own-property
presence, exactly as the original claim states: absent → `±n`, numeric →
increment/decrement, present non-numeric → `NonNumericTarget`.  The two
modes therefore agree except on falsy non-numeric terminals. -/
theorem C3_add_subtract_policy (fields tf : List (String × JVal))
    (key p : String) (n : Int) (sep : String) (hkey : key ≠ "") :
    (termC (JVal.obj fields) (jsSplit key sep) = some (tf, p) →
      ((truthyO (lookupKV tf p) = false →
        (add (JVal.obj fields) key n true sep).2 = .ok () ∧
        get (fileAfter (JVal.obj fields)
            (add (JVal.obj fields) key n true sep).1) key true sep =
          ([], .ok (some (JVal.num n))) ∧
        (subtract (JVal.obj fields) key n true sep).2 = .ok () ∧
        get (fileAfter (JVal.obj fields)
            (subtract (JVal.obj fields) key n true sep).1) key true sep =
          ([], .ok (some (JVal.num (-n))))) ∧
       (∀ m : Int, lookupKV tf p = some (JVal.num m) →
        (add (JVal.obj fields) key n true sep).2 = .ok () ∧
        get (fileAfter (JVal.obj fields)
            (add (JVal.obj fields) key n true sep).1) key true sep =
          ([], .ok (some (JVal.num (m + n)))) ∧
        (subtract (JVal.obj fields) key n true sep).2 = .ok () ∧
        get (fileAfter (JVal.obj fields)
            (subtract (JVal.obj fields) key n true sep).1) key true sep =
          ([], .ok (some (JVal.num (m - n))))) ∧
       (∀ w, lookupKV tf p = some w → truthy w = true →
          (∀ m : Int, w ≠ JVal.num m) →
        add (JVal.obj fields) key n true sep =
          ([], .error .nonNumericTarget) ∧
        subtract (JVal.obj fields) key n true sep =
          ([], .error .nonNumericTarget)))) ∧
    ((lookupKV fields key = none →
       (add (JVal.obj fields) key n false sep).2 = .ok () ∧
       get (fileAfter (JVal.obj fields)
           (add (JVal.obj fields) key n false sep).1) key false sep =
         ([], .ok (some (JVal.num n))) ∧
       (subtract (JVal.obj fields) key n false sep).2 = .ok () ∧
       get (fileAfter (JVal.obj fields)
           (subtract (JVal.obj fields) key n false sep).1) key false sep =
         ([], .ok (some (JVal.num (-n))))) ∧
     (∀ m : Int, lookupKV fields key = some (JVal.num m) →
       (add (JVal.obj fields) key n false sep).2 = .ok () ∧
       get (fileAfter (JVal.obj fields)
           (add (JVal.obj fields) key n false sep).1) key false sep =
         ([], .ok (some (JVal.num (m + n)))) ∧
       (subtract (JVal.obj fields) key n false sep).2 = .ok () ∧
       get (fileAfter (JVal.obj fields)
           (subtract (JVal.obj fields) key n false sep).1) key false sep =
         ([], .ok (some (JVal.num (m - n))))) ∧
     (∀ w, lookupKV fields key = some w → (∀ m : Int, w ≠ JVal.num m) →
       add (JVal.obj fields) key n false sep =
         ([], .error .nonNumericTarget) ∧
       subtract (JVal.obj fields) key n false sep =
         ([], .error .nonNumericTarget))) := by
  constructor
  · intro htc
    refine ⟨?_, ?_, ?_⟩
    · intro hfalsy
      have hta : addTerm n (JVal.obj tf) p =
          .ok (JVal.obj (insertKV tf p (JVal.num n))) := by
        simp [addTerm, hfalsy]
      have hts : addTerm (-n) (JVal.obj tf) p =
          .ok (JVal.obj (insertKV tf p (JVal.num (-n)))) := by
        simp [addTerm, hfalsy]
      obtain ⟨d, hw, hg⟩ :=
        termC_walk_ok (addTerm n) (jsSplit key sep) (JVal.obj fields) tf p
          (JVal.num n) htc hta
      obtain ⟨d', hw', hg'⟩ :=
        termC_walk_ok (addTerm (-n)) (jsSplit key sep) (JVal.obj fields) tf p
          (JVal.num (-n)) htc hts
      have hadd : add (JVal.obj fields) key n true sep = ([d], .ok ()) := by
        simp [add, hkey, hw, pack]
      have hsub : subtract (JVal.obj fields) key n true sep =
          ([d'], .ok ()) := by
        simp [subtract, hkey, hw', pack]
      refine ⟨by simp [hadd], ?_, by simp [hsub], ?_⟩
      · simp [hadd, fileAfter, get, hkey, jparts, hg]
      · simp [hsub, fileAfter, get, hkey, jparts, hg']
    · intro m hm
      have hta : addTerm n (JVal.obj tf) p =
          .ok (JVal.obj (insertKV tf p (JVal.num (m + n)))) := by
        by_cases hm0 : m = 0
        · subst hm0
          simp [addTerm, hm, truthyO, truthy]
        · simp [addTerm, hm, truthyO, truthy, hm0]
      have hts : addTerm (-n) (JVal.obj tf) p =
          .ok (JVal.obj (insertKV tf p (JVal.num (m - n)))) := by
        by_cases hm0 : m = 0
        · subst hm0
          simp [addTerm, hm, truthyO, truthy, Int.sub_eq_add_neg]
        · simp [addTerm, hm, truthyO, truthy, hm0, Int.sub_eq_add_neg]
      obtain ⟨d, hw, hg⟩ :=
        termC_walk_ok (addTerm n) (jsSplit key sep) (JVal.obj fields) tf p
          (JVal.num (m + n)) htc hta
      obtain ⟨d', hw', hg'⟩ :=
        termC_walk_ok (addTerm (-n)) (jsSplit key sep) (JVal.obj fields) tf p
          (JVal.num (m - n)) htc hts
      have hadd : add (JVal.obj fields) key n true sep = ([d], .ok ()) := by
        simp [add, hkey, hw, pack]
      have hsub : subtract (JVal.obj fields) key n true sep =
          ([d'], .ok ()) := by
        simp [subtract, hkey, hw', pack]
      refine ⟨by simp [hadd], ?_, by simp [hsub], ?_⟩
      · simp [hadd, fileAfter, get, hkey, jparts, hg]
      · simp [hsub, fileAfter, get, hkey, jparts, hg']
    · intro w hw htr hnn
      have hterm : ∀ δ : Int, addTerm δ (JVal.obj tf) p =
          .error .nonNumericTarget := by
        intro δ
        cases w with
        | num m => exact absurd rfl (hnn m)
        | null => simp [truthy] at htr
        | bool b =>
          cases b with
          | false => simp [truthy] at htr
          | true => simp [addTerm, hw, truthyO, truthy]
        | str str0 =>
          simp [truthy] at htr
          simp [addTerm, hw, truthyO, truthy, htr]
        | arr xs => simp [addTerm, hw, truthyO, truthy]
        | obj g => simp [addTerm, hw, truthyO, truthy]
      have hwa := termC_walk_err (addTerm n) (jsSplit key sep)
        (JVal.obj fields) tf p .nonNumericTarget htc (hterm n)
      have hws := termC_walk_err (addTerm (-n)) (jsSplit key sep)
        (JVal.obj fields) tf p .nonNumericTarget htc (hterm (-n))
      constructor
      · simp [add, hkey, hwa, pack]
      · simp [subtract, hkey, hws, pack]
  · refine ⟨?_, ?_, ?_⟩
    · intro hnone
      have hadd : add (JVal.obj fields) key n false sep =
          ([JVal.obj (insertKV fields key (JVal.num n))], .ok ()) := by
        simp [add, hkey, addFlat, hnone, pack]
      have hsub : subtract (JVal.obj fields) key n false sep =
          ([JVal.obj (insertKV fields key (JVal.num (-n)))], .ok ()) := by
        simp [subtract, hkey, addFlat, hnone, pack]
      refine ⟨by simp [hadd], ?_, by simp [hsub], ?_⟩
      · simp [hadd, fileAfter, get, hkey, jparts, getPath, propOr,
          lookup_insertKV]
      · simp [hsub, fileAfter, get, hkey, jparts, getPath, propOr,
          lookup_insertKV]
    · intro m hm
      have hadd : add (JVal.obj fields) key n false sep =
          ([JVal.obj (insertKV fields key (JVal.num (m + n)))], .ok ()) := by
        simp [add, hkey, addFlat, hm, pack]
      have hsub : subtract (JVal.obj fields) key n false sep =
          ([JVal.obj (insertKV fields key (JVal.num (m - n)))], .ok ()) := by
        simp [subtract, hkey, addFlat, hm, pack, Int.sub_eq_add_neg]
      refine ⟨by simp [hadd], ?_, by simp [hsub], ?_⟩
      · simp [hadd, fileAfter, get, hkey, jparts, getPath, propOr,
          lookup_insertKV]
      · simp [hsub, fileAfter, get, hkey, jparts, getPath, propOr,
          lookup_insertKV]
    · intro w hw hnn
      have hflat : ∀ δ : Int, addFlat δ (JVal.obj fields) key =
          .error .nonNumericTarget := by
        intro δ
        cases w with
        | num m => exact absurd rfl (hnn m)
        | null => simp [addFlat, hw]
        | bool b => simp [addFlat, hw]
        | str str0 => simp [addFlat, hw]
        | arr xs => simp [addFlat, hw]
        | obj g => simp [addFlat, hw]
      constructor
      · simp [add, hkey, hflat n, pack]
      · simp [subtract, hkey, hflat (-n), pack]

/-- Claim C3, witness: a numeric terminal `2` with `n = 3` yields `5` for
`add` and `-1` for `subtract`, through the amended theorem. -/
theorem C3_witness :
    ("a" ≠ "" ∧
      termC (JVal.obj [("a", JVal.num 2)]) (jsSplit "a" "..") =
        some ([("a", JVal.num 2)], "a") ∧
      lookupKV [("a", JVal.num 2)] "a" = some (JVal.num 2)) ∧
    ((add (JVal.obj [("a", JVal.num 2)]) "a" 3 true "..").2 = .ok () ∧
      get (fileAfter (JVal.obj [("a", JVal.num 2)])
          (add (JVal.obj [("a", JVal.num 2)]) "a" 3 true "..").1) "a" true ".." =
        ([], .ok (some (JVal.num (2 + 3)))) ∧
      (subtract (JVal.obj [("a", JVal.num 2)]) "a" 3 true "..").2 = .ok () ∧
      get (fileAfter (JVal.obj [("a", JVal.num 2)])
          (subtract (JVal.obj [("a", JVal.num 2)]) "a" 3 true "..").1)
        "a" true ".." = ([], .ok (some (JVal.num (2 - 3))))) :=
  ⟨⟨by decide, rfl, rfl⟩,
   ((C3_add_subtract_policy [("a", JVal.num 2)] [("a", JVal.num 2)] "a" "a" 3
      ".." (by decide)).1 rfl).2.1 2 rfl⟩

/-- Claim C7, counterexample.  `delete` can throw instead of returning
`false` on an absent terminal: on `{"a": null}` with key `"a..b"` the walk
reaches the stored `null` and calls `null.hasOwnProperty`, raising a JS
`TypeError`, although the terminal entry is absent and the claim demands
`false` with no write. -/
theorem C7_counterexample :
    delete (JVal.obj [("a", JVal.null)]) "a..b" true ".." =
      ([], .error .typeError) ∧
    (delete (JVal.obj [("a", JVal.null)]) "a..b" true "..").2 ≠
      .ok false := by
  refine ⟨rfl, ?_⟩
  intro h
  rw [show (delete (JVal.obj [("a", JVal.null)]) "a..b" true "..").2 =
      .error .typeError from rfl] at h
  simp at h

/-- Claim C7 (amended): provided the walk never dereferences a stored `null`
and any own property it descends through leads into plain mappings with a
duplicate-free terminal mapping (`delOk`): when the terminal entry is absent
or the traversal stops at a missing (or primitive) intermediate, `delete`
returns `false` and performs no write; when the terminal entry is present,
`delete` removes it, persists the document (exactly one write), returns
`true`, and a subsequent `get` of the same key reports it absent. -/
theorem C7_delete_policy (fields : List (String × JVal)) (key : String)
    (nested : Bool) (sep : String) (hkey : key ≠ "")
    (hok : delOk (JVal.obj fields) (jparts key nested sep) = true) :
    (delPresent (JVal.obj fields) (jparts key nested sep) = false →
      delete (JVal.obj fields) key nested sep = ([], .ok false)) ∧
    (delPresent (JVal.obj fields) (jparts key nested sep) = true →
      (delete (JVal.obj fields) key nested sep).2 = .ok true ∧
      (delete (JVal.obj fields) key nested sep).1 ≠ [] ∧
      get (fileAfter (JVal.obj fields)
          (delete (JVal.obj fields) key nested sep).1) key nested sep =
        ([], .ok none)) := by
  have hmain := delOk_delPath (jparts key nested sep) (JVal.obj fields) hok
  constructor
  · intro hp
    have hd := hmain.1 hp
    simp [delete, hkey, hd, packDel]
  · intro hp
    obtain ⟨c', hw, hg⟩ := hmain.2 hp
    have hdel : delete (JVal.obj fields) key nested sep = ([c'], .ok true) := by
      simp [delete, hkey, hw, packDel]
    refine ⟨by simp [hdel], by simp [hdel], ?_⟩
    simp [hdel, fileAfter, get, hkey, hg]

/-- Claim C7, witness: deleting a present nested entry through the amended
theorem. -/
theorem C7_witness :
    ("a..b" ≠ "" ∧
      delOk (JVal.obj [("a", JVal.obj [("b", JVal.num 1)])])
        (jparts "a..b" true "..") = true ∧
      delPresent (JVal.obj [("a", JVal.obj [("b", JVal.num 1)])])
        (jparts "a..b" true "..") = true) ∧
    ((delete (JVal.obj [("a", JVal.obj [("b", JVal.num 1)])])
        "a..b" true "..").2 = .ok true ∧
      (delete (JVal.obj [("a", JVal.obj [("b", JVal.num 1)])])
        "a..b" true "..").1 ≠ [] ∧
      get (fileAfter (JVal.obj [("a", JVal.obj [("b", JVal.num 1)])])
          (delete (JVal.obj [("a", JVal.obj [("b", JVal.num 1)])])
            "a..b" true "..").1) "a..b" true ".." = ([], .ok none)) :=
  ⟨⟨by decide, rfl, rfl⟩,
   (C7_delete_policy [("a", JVal.obj [("b", JVal.num 1)])] "a..b" true ".."
     (by decide) rfl).2 rfl⟩

/-- Claim C8 (confirmed): no call mutates the instance defaults — the
configuration after any call (with or without per-call overrides) is the one
fixed at construction, and a subsequent call without overrides behaves
exactly as it would on the same document with the original defaults. -/
theorem C8_overrides_pure (st : DBState) (op : Op) :
    ((DBState.call st op).1).inst = st.inst ∧
    (∀ op2 : Op, noOverrides op2 = true →
      DBState.call (DBState.call st op).1 op2 =
        DBState.call ⟨st.inst, ((DBState.call st op).1).file⟩ op2) := by
  have h1 : ((DBState.call st op).1).inst = st.inst := by
    cases op <;> rfl
  refine ⟨h1, ?_⟩
  intro op2 _
  have h2 : (DBState.call st op).1 =
      ⟨st.inst, ((DBState.call st op).1).file⟩ := by
    rw [← h1]
  exact congrArg (fun x => DBState.call x op2) h2

/-- Claim C8, witness: a `set` call overriding both defaults leaves the
instance configuration untouched, through the confirmed theorem. -/
theorem C8_witness :
    noOverrides (Op.get "k" none none) = true ∧
    ((DBState.call ⟨⟨true, ".."⟩, JVal.obj []⟩
        (Op.set "k" (JVal.num 1) (some false) (some "."))).1).inst =
      DataBase.mk true ".." ∧
    DBState.call (DBState.call ⟨⟨true, ".."⟩, JVal.obj []⟩
        (Op.set "k" (JVal.num 1) (some false) (some "."))).1
      (Op.get "k" none none) =
      DBState.call ⟨DataBase.mk true "..",
        ((DBState.call ⟨⟨true, ".."⟩, JVal.obj []⟩
          (Op.set "k" (JVal.num 1) (some false) (some "."))).1).file⟩
      (Op.get "k" none none) :=
  ⟨rfl,
   (C8_overrides_pure ⟨⟨true, ".."⟩, JVal.obj []⟩
     (Op.set "k" (JVal.num 1) (some false) (some "."))).1,
   (C8_overrides_pure ⟨⟨true, ".."⟩, JVal.obj []⟩
     (Op.set "k" (JVal.num 1) (some false) (some "."))).2
     (Op.get "k" none none) rfl⟩

theorem pack_writes_err {r : Except JErr JVal} {e : JErr}
    (h : (pack r).2 = .error e) : (pack r).1 = [] := by
  cases r with
  | error e' => rfl
  | ok d => simp [pack] at h

theorem packDel_writes_err {r : Except JErr (JVal × Bool)} {e : JErr}
    (h : (packDel r).2 = .error e) : (packDel r).1 = [] := by
  match r with
  | .error e' => rfl
  | .ok (d, true) => simp [packDel] at h
  | .ok (d, false) => rfl

theorem packPull_writes_err {n : Nat} {r : Except JErr (JVal × Bool)}
    {e : JErr} (h : (packPull n r).2 = .error e) : (packPull n r).1 = [] := by
  match r with
  | .error e' => rfl
  | .ok (d, true) => simp [packPull] at h
  | .ok (d, false) => rfl

theorem map_eq_error {α β : Type} {f : α → β} {r : Except JErr α} {e : JErr}
    (h : r.map f = .error e) : r = .error e := by
  cases r with
  | error e' => simpa [Except.map] using h
  | ok a => simp [Except.map] at h

theorem set_err_no_write {f : JVal} {k : String} {v : JVal} {ns : Bool}
    {sp : String} {e : JErr} (h : (set f k v ns sp).2 = .error e) :
    (set f k v ns sp).1 = [] := by
  by_cases hk : k = ""
  · simp [set, hk]
  · simp only [set, if_neg hk] at h ⊢
    exact pack_writes_err h

theorem delete_err_no_write {f : JVal} {k : String} {ns : Bool} {sp : String}
    {e : JErr} (h : (delete f k ns sp).2 = .error e) :
    (delete f k ns sp).1 = [] := by
  by_cases hk : k = ""
  · simp [delete, hk]
  · simp only [delete, if_neg hk] at h ⊢
    exact packDel_writes_err h

theorem add_err_no_write {f : JVal} {k : String} {v : Int} {ns : Bool}
    {sp : String} {e : JErr} (h : (add f k v ns sp).2 = .error e) :
    (add f k v ns sp).1 = [] := by
  by_cases hk : k = ""
  · simp [add, hk]
  · simp only [add, if_neg hk] at h ⊢
    exact pack_writes_err h

theorem subtract_err_no_write {f : JVal} {k : String} {v : Int} {ns : Bool}
    {sp : String} {e : JErr} (h : (subtract f k v ns sp).2 = .error e) :
    (subtract f k v ns sp).1 = [] := by
  by_cases hk : k = ""
  · simp [subtract, hk]
  · simp only [subtract, if_neg hk] at h ⊢
    exact pack_writes_err h

theorem push_err_no_write {f : JVal} {k : String} {v : JVal} {ns : Bool}
    {sp : String} {e : JErr} (h : (push f k v ns sp).2 = .error e) :
    (push f k v ns sp).1 = [] := by
  by_cases hk : k = ""
  · simp [push, hk]
  · simp only [push, if_neg hk] at h ⊢
    exact pack_writes_err h

theorem pull_err_no_write {f : JVal} {k : String} {arg : PullArg} {pa : Bool}
    {ns : Bool} {sp : String} {e : JErr}
    (h : (pull f k arg pa ns sp).2 = .error e) :
    (pull f k arg pa ns sp).1 = [] := by
  by_cases hk : k = ""
  · simp [pull, hk]
  · simp only [pull, if_neg hk] at h ⊢
    exact packPull_writes_err h

/-- Claim C9 (confirmed): whenever a call fails with one of the library's
`DatabaseError` kinds (invalid key, `CannotCreateProperty`,
`NonNumericTarget`, `NotAnArray`, ...), no write was performed and the
backing file is unchanged — every such error is raised before the
(single, final) `writeFileSync` of the operation. -/
theorem C9_error_no_write (st : DBState) (op : Op) (e : JErr)
    (herr : ((DBState.call st op).2).2 = .error e)
    (_hdb : isDBErr e = true) :
    ((DBState.call st op).2).1 = [] ∧
    ((DBState.call st op).1).file = st.file := by
  cases op with
  | set key v n s' =>
    have hre : (set st.file key v (resolveNested st.inst n)
        (resolveSep st.inst s')).2 = .error e := map_eq_error herr
    have hw := set_err_no_write hre
    exact ⟨hw, by show fileAfter st.file _ = st.file; rw [hw]; rfl⟩
  | get key n s' =>
    have hw : (get st.file key (resolveNested st.inst n)
        (resolveSep st.inst s')).1 = [] := by
      by_cases hk : key = "" <;> simp [get, hk]
    exact ⟨hw, by show fileAfter st.file _ = st.file; rw [hw]; rfl⟩
  | fetch key n s' =>
    have hw : (fetch st.file key (resolveNested st.inst n)
        (resolveSep st.inst s')).1 = [] := by
      by_cases hk : key = "" <;> simp [fetch, get, hk]
    exact ⟨hw, by show fileAfter st.file _ = st.file; rw [hw]; rfl⟩
  | del key n s' =>
    have hre : (delete st.file key (resolveNested st.inst n)
        (resolveSep st.inst s')).2 = .error e := map_eq_error herr
    have hw := delete_err_no_write hre
    exact ⟨hw, by show fileAfter st.file _ = st.file; rw [hw]; rfl⟩
  | has key n s' =>
    have hw : (has st.file key (resolveNested st.inst n)
        (resolveSep st.inst s')).1 = [] := by
      by_cases hk : key = "" <;> simp [has, hk]
    exact ⟨hw, by show fileAfter st.file _ = st.file; rw [hw]; rfl⟩
  | add key v n s' =>
    have hre : (add st.file key v (resolveNested st.inst n)
        (resolveSep st.inst s')).2 = .error e := map_eq_error herr
    have hw := add_err_no_write hre
    exact ⟨hw, by show fileAfter st.file _ = st.file; rw [hw]; rfl⟩
  | subtract key v n s' =>
    have hre : (subtract st.file key v (resolveNested st.inst n)
        (resolveSep st.inst s')).2 = .error e := map_eq_error herr
    have hw := subtract_err_no_write hre
    exact ⟨hw, by show fileAfter st.file _ = st.file; rw [hw]; rfl⟩
  | push key v n s' =>
    have hre : (push st.file key v (resolveNested st.inst n)
        (resolveSep st.inst s')).2 = .error e := map_eq_error herr
    have hw := push_err_no_write hre
    exact ⟨hw, by show fileAfter st.file _ = st.file; rw [hw]; rfl⟩
  | pull key arg pa n s' =>
    have hre : (pull st.file key arg pa (resolveNested st.inst n)
        (resolveSep st.inst s')).2 = .error e := map_eq_error herr
    have hw := pull_err_no_write hre
    exact ⟨hw, by show fileAfter st.file _ = st.file; rw [hw]; rfl⟩
  | all => simp [DBState.call, all, Except.map] at herr
  | reset => simp [DBState.call, reset, Except.map] at herr

/-- Claim C9, witness: a nested `set` blocked by a numeric intermediate
fails with `CannotCreateProperty` and leaves the file untouched, through the
confirmed theorem. -/
theorem C9_witness :
    (((DBState.call ⟨⟨true, ".."⟩, JVal.obj [("a", JVal.num 5)]⟩
        (Op.set "a..b" (JVal.num 1) none none)).2).2 =
      .error .cannotCreateProperty ∧
      isDBErr .cannotCreateProperty = true) ∧
    (((DBState.call ⟨⟨true, ".."⟩, JVal.obj [("a", JVal.num 5)]⟩
        (Op.set "a..b" (JVal.num 1) none none)).2).1 = [] ∧
      ((DBState.call ⟨⟨true, ".."⟩, JVal.obj [("a", JVal.num 5)]⟩
        (Op.set "a..b" (JVal.num 1) none none)).1).file =
        JVal.obj [("a", JVal.num 5)]) :=
  ⟨⟨rfl, rfl⟩,
   C9_error_no_write ⟨⟨true, ".."⟩, JVal.obj [("a", JVal.num 5)]⟩
     (Op.set "a..b" (JVal.num 1) none none) .cannotCreateProperty rfl rfl⟩

/-- Claim C10 (confirmed): `get`, `fetch`, `has` and `all` perform no write
on any input — their write traces are empty, so the persisted document after
the call equals the one before it. -/
theorem C10_readers_no_write (file : JVal) (key : String) (nested : Bool)
    (sep : String) :
    (get file key nested sep).1 = [] ∧
    (fetch file key nested sep).1 = [] ∧
    (has file key nested sep).1 = [] ∧
    (all file).1 = [] := by
  refine ⟨?_, ?_, ?_, rfl⟩ <;>
    by_cases hk : key = "" <;> simp [get, fetch, has, hk]

end GoDB
